import Mathlib

/-!
Shallow embedding of the `TabSwitcherModal` component from
`src/app/common/modals` (waveterm): the switcher's option record, its
filter predicate, ranking comparator, search pipeline, keyboard handling
and focus-cursor state machine, together with proofs of the specified
properties.

JavaScript strings are modelled as Lean `String`s; the JS string methods
used by the component (`includes`, `toLowerCase`, `trim`, `split("/")`)
are embedded as structurally recursive functions over the character list.
JS numbers holding indices are modelled as `Int` (the focus index can
become negative). `Array.prototype.sort` (stable since ES2019) is
modelled by `List.mergeSort`; since the comparator is a consistent total
preorder, any stable sort produces this exact result.  JS `sort` mutates
the receiving array in place, so operations that sort `this.options`
update the `options` field of the state.
-/

/-- Embedding of JS `sub.isPrefixOf`-style check used below: `l.includes sub`
on character lists, i.e. `sub` occurs contiguously inside `l`. -/
def jsIncludesL (sub : List Char) : List Char → Bool
  | [] => sub.isEmpty
  | x :: xs => sub.isPrefixOf (x :: xs) || jsIncludesL sub xs

/-- Embedding of JS `s.includes(sub)`. -/
def jsIncludes (s sub : String) : Bool :=
  jsIncludesL sub.data s.data

/-- Embedding of JS `s.toLowerCase()` (ASCII case mapping). -/
def jsToLower (s : String) : String :=
  String.mk (s.data.map Char.toLower)

/-- Embedding of JS `s.trim()`: strip whitespace from both ends. -/
def jsTrim (s : String) : String :=
  String.mk (((s.data.dropWhile Char.isWhitespace).reverse.dropWhile Char.isWhitespace).reverse)

/-- Embedding of JS `s.split(c)` for a one-character separator, split at
every occurrence.  The result is returned as (first segment, remaining
segments); the full JS result list is the first segment consed onto the
rest, which makes its non-emptiness structural. -/
def splitOnCharL (c : Char) : List Char → List Char × List (List Char)
  | [] => ([], [])
  | x :: xs =>
    let r := splitOnCharL c xs
    if x == c then ([], r.1 :: r.2)
    else (x :: r.1, r.2)

/-- Embedding of JS `s.split(c)` as a list of strings (always non-empty,
like in JS). -/
def jsSplit (s : String) (c : Char) : List String :=
  String.mk (splitOnCharL c s.data).1 :: (splitOnCharL c s.data).2.map String.mk

/-- The option record built for each (session, screen) pair
(`SwitcherDataType` in the source). -/
structure SwitcherDataType where
  sessionId : String
  sessionName : String
  sessionIdx : Int
  screenId : String
  screenIdx : Int
  screenName : String
  icon : String
  color : String
deriving DecidableEq, Repr

/-- `MaxOptionsToDisplay` from the source. -/
def MaxOptionsToDisplay : Nat := 100

/-- The comparator body of `sortOptions` (the arrow function passed to
`options.sort`), returning a JS-style negative/zero/positive number. -/
def tabCmp (act : Int) (a b : SwitcherDataType) : Int :=
  if a.sessionIdx = act ∧ b.sessionIdx = act then a.screenIdx - b.screenIdx
  else if a.sessionIdx = act then -1
  else if b.sessionIdx = act then 1
  else if a.sessionIdx = b.sessionIdx then a.screenIdx - b.screenIdx
  else a.sessionIdx - b.sessionIdx

/-- `TabSwitcherModal.sortOptions`: stable sort by the comparator
(`act` is `this.activeSessionIdx`). -/
def sortOptions (act : Int) (l : List SwitcherDataType) : List SwitcherDataType :=
  l.mergeSort (fun a b => decide (tabCmp act a b ≤ 0))

/-- The per-option match test inside `TabSwitcherModal.filterOptions`. -/
def matchTab (tab : SwitcherDataType) (searchInput : String) : Bool :=
  if jsIncludes searchInput "/" then
    let parts := (jsSplit searchInput '/').map (fun x => jsToLower (jsTrim x))
    let sessionFilter := parts.getD 0 ""
    let screenFilter := parts.getD 1 ""
    jsIncludes (jsToLower tab.sessionName) sessionFilter &&
      jsIncludes (jsToLower tab.screenName) screenFilter
  else
    jsIncludes (jsToLower tab.sessionName) searchInput ||
      jsIncludes (jsToLower tab.screenName) searchInput

/-- `TabSwitcherModal.filterOptions`: keep, in order, the options whose
match test succeeds. -/
def filterOptions (opts : List SwitcherDataType) (searchInput : String) :
    List SwitcherDataType :=
  opts.filter (fun tab => matchTab tab searchInput)

/-- The switcher's mutable state: `this.options` (allOptions),
`this.sOptions` (visibleOptions), `this.focusedIdx` and the immutable
`this.activeSessionIdx`. -/
structure SwitcherState where
  options : List SwitcherDataType
  sOptions : List SwitcherDataType
  focusedIdx : Int
  act : Int
deriving DecidableEq, Repr

/-- Externally visible effects of one event: the dispatched
`switchScreen(screenId, sessionId)` command, if any, and whether the
modal was closed. -/
structure Effects where
  switched : Option (String × String)
  closed : Bool
deriving DecidableEq, Repr

/-- No command dispatched, modal left open. -/
def noEffects : Effects := { switched := none, closed := false }

/-- The clamp in `componentDidUpdate`: if the focus index fell off the end
of a non-empty visible list, pull it back to the last index. -/
def clampUpdate (s : SwitcherState) : SwitcherState :=
  if s.focusedIdx ≥ (s.sOptions.length : Int) ∧ 0 < s.sOptions.length then
    { s with focusedIdx := (s.sOptions.length : Int) - 1 }
  else s

/-- `componentDidMount`: snapshot the options (given here as `opts0`),
sort them in place, and display the first `MaxOptionsToDisplay`. -/
def initState (opts0 : List SwitcherDataType) (act : Int) : SwitcherState :=
  let o := sortOptions act opts0
  { options := o, sOptions := o.take MaxOptionsToDisplay, focusedIdx := 0, act := act }

/-- JS array indexing `l[i]` with a possibly negative index: `undefined`
(modelled as `none`) outside the bounds. -/
def jsGetElem (l : List SwitcherDataType) (i : Int) : Option SwitcherDataType :=
  if i < 0 then none else l[i.toNat]?

/-- `TabSwitcherModal.handleSelect`: look up the option at `index`; when
present dispatch `switchScreen` and close, otherwise do nothing.  The
switcher state itself is never mutated. -/
def handleSelect (s : SwitcherState) (index : Int) : SwitcherState × Effects :=
  match jsGetElem s.sOptions index with
  | some o => (s, { switched := some (o.screenId, o.sessionId), closed := true })
  | none => (s, noEffects)

/-- `TabSwitcherModal.calculateNewIndex`. -/
def calculateNewIndex (s : SwitcherState) (isUpKey : Bool) : Int :=
  if isUpKey then max (s.focusedIdx - 1) 0
  else min (s.focusedIdx + 1) ((s.sOptions.length : Int) - 1)

/-- The keys handled by `TabSwitcherModal.handleKeyDown`. -/
inductive Key where
  | arrowUp
  | arrowDown
  | enter
  | escape
deriving DecidableEq, Repr

/-- `TabSwitcherModal.handleKeyDown`, one step per key event.  Arrow keys
mutate the focus index (and trigger the `componentDidUpdate` clamp);
Enter commits the focused option; Escape closes. -/
def stepKey (s : SwitcherState) : Key → SwitcherState × Effects
  | Key.escape => (s, { switched := none, closed := true })
  | Key.arrowUp => (clampUpdate { s with focusedIdx := calculateNewIndex s true }, noEffects)
  | Key.arrowDown => (clampUpdate { s with focusedIdx := calculateNewIndex s false }, noEffects)
  | Key.enter => handleSelect s s.focusedIdx

/-- `TabSwitcherModal.handleSearch`.  On the empty string the options are
re-sorted in place (JS `sort` mutates) and truncated; otherwise the
filtered copy is sorted and truncated when longer than the cap.  The
focus index is reset to 0 and the update clamp runs afterwards. -/
def handleSearch (s : SwitcherState) (val : String) : SwitcherState :=
  let s' :=
    if val = "" then
      let o := sortOptions s.act s.options
      { s with options := o, sOptions := o.take MaxOptionsToDisplay, focusedIdx := 0 }
    else
      let f := sortOptions s.act (filterOptions s.options val)
      let f := if MaxOptionsToDisplay < f.length then f.take MaxOptionsToDisplay else f
      { s with sOptions := f, focusedIdx := 0 }
  clampUpdate s'

/-- States reachable from a freshly mounted switcher by any sequence of
search updates and key events. -/
inductive Reachable (opts0 : List SwitcherDataType) (act : Int) : SwitcherState → Prop where
  | init : Reachable opts0 act (initState opts0 act)
  | search : ∀ s val, Reachable opts0 act s → Reachable opts0 act (handleSearch s val)
  | key : ∀ s k, Reachable opts0 act s → Reachable opts0 act (stepKey s k).1

/-- Characters of `l` before its first occurrence of `'/'` (all of `l`
when there is none). -/
def beforeSlashL (l : List Char) : List Char :=
  l.takeWhile (fun x => !(x == '/'))

/-- Characters of `l` strictly after its first occurrence of `'/'` (empty
when there is none). -/
def afterSlashL (l : List Char) : List Char :=
  (l.dropWhile (fun x => !(x == '/'))).drop 1

/-- The slash-branch match predicate as the claim words it: split the
query on the FIRST `'/'` only, so the tab query is EVERYTHING after that
slash; trim and lower-case both sides; require the lower-cased session
name to contain the session query and the lower-cased tab name to contain
the tab query.  Stated for comparison with `matchTab`. -/
def specMatchSlashFirst (tab : SwitcherDataType) (q : String) : Bool :=
  jsIncludes (jsToLower tab.sessionName) (jsToLower (jsTrim (String.mk (beforeSlashL q.data)))) &&
    jsIncludes (jsToLower tab.screenName) (jsToLower (jsTrim (String.mk (afterSlashL q.data))))

/-- The focus-cursor invariant that actually holds in every reachable
state: the index stays in `[-1, max 1 len)` and is non-negative whenever
the visible list is non-empty. -/
def cursorInv (s : SwitcherState) : Prop :=
  -1 ≤ s.focusedIdx ∧ s.focusedIdx < max 1 (s.sOptions.length : Int) ∧
    (0 < s.sOptions.length → 0 ≤ s.focusedIdx)

/-! ### The ranking comparator as an order -/

/-- The precedence relation described by the ranking rule: active-session
options come first ordered by `screenIdx`; the rest are ordered by
`sessionIdx` then `screenIdx`. -/
def specPrecede (act : Int) (a b : SwitcherDataType) : Prop :=
  (a.sessionIdx = act ∧ b.sessionIdx ≠ act) ∨
  (a.sessionIdx = act ∧ b.sessionIdx = act ∧ a.screenIdx ≤ b.screenIdx) ∨
  (a.sessionIdx ≠ act ∧ b.sessionIdx ≠ act ∧
    (a.sessionIdx < b.sessionIdx ∨ (a.sessionIdx = b.sessionIdx ∧ a.screenIdx ≤ b.screenIdx)))

theorem tabCmp_neg (act : Int) (a b : SwitcherDataType) :
    tabCmp act b a = -tabCmp act a b := by
  unfold tabCmp
  split_ifs <;> omega

theorem tabCmp_trans (act : Int) (a b c : SwitcherDataType)
    (hab : tabCmp act a b ≤ 0) (hbc : tabCmp act b c ≤ 0) :
    tabCmp act a c ≤ 0 := by
  unfold tabCmp at *
  split_ifs at * <;> omega

theorem tabCmp_le_iff_specPrecede (act : Int) (a b : SwitcherDataType) :
    tabCmp act a b ≤ 0 ↔ specPrecede act a b := by
  unfold tabCmp specPrecede
  split_ifs <;> omega

theorem rankLe_trans (act : Int) :
    ∀ a b c : SwitcherDataType,
      decide (tabCmp act a b ≤ 0) → decide (tabCmp act b c ≤ 0) →
        decide (tabCmp act a c ≤ 0) := by
  intro a b c hab hbc
  simp only [decide_eq_true_eq] at *
  exact tabCmp_trans act a b c hab hbc

theorem rankLe_total (act : Int) :
    ∀ a b : SwitcherDataType,
      decide (tabCmp act a b ≤ 0) || decide (tabCmp act b a ≤ 0) := by
  intro a b
  have h := tabCmp_neg act a b
  simp only [Bool.or_eq_true, decide_eq_true_eq]
  omega

theorem sortOptions_pairwise (act : Int) (l : List SwitcherDataType) :
    (sortOptions act l).Pairwise (specPrecede act) := by
  have h := List.sorted_mergeSort (rankLe_trans act) (rankLe_total act) l
  exact h.imp (fun hab => (tabCmp_le_iff_specPrecede act _ _).mp (by simpa using hab))

theorem sortOptions_perm (act : Int) (l : List SwitcherDataType) :
    (sortOptions act l).Perm l :=
  List.mergeSort_perm l _

theorem sortOptions_idem (act : Int) (l : List SwitcherDataType) :
    sortOptions act (sortOptions act l) = sortOptions act l := by
  apply List.mergeSort_of_sorted
  exact List.sorted_mergeSort (rankLe_trans act) (rankLe_total act) l

/-! ### String and split helper lemmas -/

theorem jsIncludesL_nil (l : List Char) : jsIncludesL [] l = true := by
  induction l with
  | nil => rfl
  | cons x xs ih => simp [jsIncludesL, ih, List.isPrefixOf]

theorem jsIncludesL_singleton (c : Char) (l : List Char) :
    jsIncludesL [c] l = true ↔ c ∈ l := by
  induction l with
  | nil => simp [jsIncludesL, List.isEmpty]
  | cons x xs ih =>
    simp only [jsIncludesL, List.isPrefixOf, Bool.or_eq_true, Bool.and_eq_true, ih,
      List.mem_cons]
    constructor
    · rintro (⟨h, -⟩ | h)
      · exact Or.inl (beq_iff_eq.mp h)
      · exact Or.inr h
    · rintro (h | h)
      · exact Or.inl ⟨beq_iff_eq.mpr h, trivial⟩
      · exact Or.inr h

theorem splitOnCharL_fst (c : Char) (l : List Char) :
    (splitOnCharL c l).1 = l.takeWhile (fun x => !(x == c)) := by
  induction l with
  | nil => rfl
  | cons x xs ih =>
    by_cases h : x == c
    · simp [splitOnCharL, h, List.takeWhile_cons]
    · simp [splitOnCharL, h, List.takeWhile_cons, ih]

theorem splitOnCharL_snd (c : Char) (l : List Char) (hmem : c ∈ l) :
    (splitOnCharL c l).2 =
      (splitOnCharL c ((l.dropWhile (fun x => !(x == c))).drop 1)).1 ::
        (splitOnCharL c ((l.dropWhile (fun x => !(x == c))).drop 1)).2 := by
  induction l with
  | nil => simp at hmem
  | cons x xs ih =>
    by_cases h : x == c
    · simp [splitOnCharL, h, List.dropWhile_cons]
    · have hx : c ∈ xs := by
        rcases List.mem_cons.mp hmem with h1 | h1
        · exact absurd (beq_iff_eq.mpr h1.symm) h
        · exact h1
      simp [splitOnCharL, h, List.dropWhile_cons, ih hx]

/-! ### Filter lemmas -/

theorem matchTab_empty_query (tab : SwitcherDataType) : matchTab tab "" = true := by
  unfold matchTab
  rw [if_neg (by decide)]
  have h2 : ("" : String).data = [] := rfl
  simp [jsIncludes, h2, jsIncludesL_nil]

theorem filterOptions_empty_query (opts : List SwitcherDataType) :
    filterOptions opts "" = opts := by
  simp [filterOptions, matchTab_empty_query]

/-! ### State-machine helper lemmas -/

theorem initState_nil (act : Int) :
    initState [] act = { options := [], sOptions := [], focusedIdx := 0, act := act } := by
  simp [initState, sortOptions, MaxOptionsToDisplay]

theorem clampUpdate_options (s : SwitcherState) : (clampUpdate s).options = s.options := by
  unfold clampUpdate; split_ifs <;> rfl

theorem clampUpdate_sOptions (s : SwitcherState) : (clampUpdate s).sOptions = s.sOptions := by
  unfold clampUpdate; split_ifs <;> rfl

theorem clampUpdate_act (s : SwitcherState) : (clampUpdate s).act = s.act := by
  unfold clampUpdate; split_ifs <;> rfl

theorem clampUpdate_of_focusedIdx_zero (s : SwitcherState) (h : s.focusedIdx = 0) :
    clampUpdate s = s := by
  unfold clampUpdate
  rw [if_neg]
  omega

theorem handleSelect_fst (s : SwitcherState) (index : Int) :
    (handleSelect s index).1 = s := by
  unfold handleSelect
  cases jsGetElem s.sOptions index <;> rfl

theorem stepKey_fst_options (s : SwitcherState) (k : Key) :
    (stepKey s k).1.options = s.options := by
  cases k <;>
    simp [stepKey, clampUpdate_options, handleSelect_fst]

theorem stepKey_fst_sOptions (s : SwitcherState) (k : Key) :
    (stepKey s k).1.sOptions = s.sOptions := by
  cases k <;>
    simp [stepKey, clampUpdate_sOptions, handleSelect_fst]

theorem stepKey_fst_act (s : SwitcherState) (k : Key) :
    (stepKey s k).1.act = s.act := by
  cases k <;>
    simp [stepKey, clampUpdate_act, handleSelect_fst]

theorem handleSearch_sOptions (s : SwitcherState) (val : String) :
    (handleSearch s val).sOptions =
      (sortOptions s.act (filterOptions s.options val)).take MaxOptionsToDisplay := by
  unfold handleSearch
  split_ifs with h
  · rw [clampUpdate_sOptions, h, filterOptions_empty_query]
  · rw [clampUpdate_sOptions]
    by_cases hlen :
        MaxOptionsToDisplay < (sortOptions s.act (filterOptions s.options val)).length
    · simp [hlen]
    · simp only [hlen, if_false]
      exact (List.take_of_length_le (Nat.le_of_not_lt hlen)).symm

theorem handleSearch_focusedIdx (s : SwitcherState) (val : String) :
    (handleSearch s val).focusedIdx = 0 := by
  unfold handleSearch
  split_ifs <;> rw [clampUpdate_of_focusedIdx_zero] <;> rfl

theorem handleSearch_options (s : SwitcherState) (val : String) :
    (handleSearch s val).options =
      (if val = "" then sortOptions s.act s.options else s.options) := by
  unfold handleSearch
  split_ifs <;> rw [clampUpdate_options]

/-! ### Reachability invariants -/

theorem cursorInv_of_focusedIdx_zero (s : SwitcherState) (h : s.focusedIdx = 0) :
    cursorInv s := by
  unfold cursorInv
  refine ⟨by omega, ?_, fun _ => by omega⟩
  have : (1 : Int) ≤ max 1 (s.sOptions.length : Int) := le_max_left _ _
  omega

theorem cursorInv_clampUpdate (s : SwitcherState) (h : cursorInv s) :
    cursorInv (clampUpdate s) := by
  unfold cursorInv clampUpdate at *
  split_ifs with hc
  · simp only
    have : (1 : Int) ≤ max 1 (s.sOptions.length : Int) := le_max_left _ _
    have hmax : max 1 (s.sOptions.length : Int) = (s.sOptions.length : Int) := by
      apply max_eq_right
      omega
    omega
  · exact h

theorem cursorInv_calculateNewIndex (s : SwitcherState) (b : Bool) (h : cursorInv s) :
    cursorInv { s with focusedIdx := calculateNewIndex s b } := by
  unfold cursorInv calculateNewIndex at *
  rcases max_cases 1 (s.sOptions.length : Int) with ⟨hm, hm'⟩ | ⟨hm, hm'⟩ <;>
    rw [hm] at * <;>
    cases b <;>
    simp only [if_true, if_false, Bool.false_eq_true] <;>
    constructor <;>
    try constructor
  all_goals
    first
    | (intro hlen; omega)
    | omega

theorem reachable_cursorInv (opts0 : List SwitcherDataType) (act : Int)
    (s : SwitcherState) (h : Reachable opts0 act s) : cursorInv s := by
  induction h with
  | init => exact cursorInv_of_focusedIdx_zero _ rfl
  | search s val _ ih =>
    unfold handleSearch
    apply cursorInv_clampUpdate
    apply cursorInv_of_focusedIdx_zero
    split_ifs <;> rfl
  | key s k _ ih =>
    cases k with
    | escape => exact ih
    | enter =>
      show cursorInv (handleSelect s s.focusedIdx).1
      rw [handleSelect_fst]
      exact ih
    | arrowUp =>
      exact cursorInv_clampUpdate _ (cursorInv_calculateNewIndex s true ih)
    | arrowDown =>
      exact cursorInv_clampUpdate _ (cursorInv_calculateNewIndex s false ih)

theorem reachable_options_eq (opts0 : List SwitcherDataType) (act : Int)
    (s : SwitcherState) (h : Reachable opts0 act s) :
    s.options = sortOptions act opts0 ∧ s.act = act := by
  induction h with
  | init => exact ⟨rfl, rfl⟩
  | search s val _ ih =>
    refine ⟨?_, ?_⟩
    · rw [handleSearch_options]
      split_ifs
      · rw [ih.1, ih.2, sortOptions_idem]
      · exact ih.1
    · show (handleSearch s val).act = act
      unfold handleSearch
      rw [clampUpdate_act]
      split_ifs <;> simpa using ih.2
  | key s k _ ih =>
    exact ⟨(stepKey_fst_options s k).trans ih.1, (stepKey_fst_act s k).trans ih.2⟩

theorem reachable_empty (act : Int) (s : SwitcherState)
    (h : Reachable [] act s) : s.options = [] ∧ s.sOptions = [] := by
  induction h with
  | init => rw [initState_nil]; exact ⟨rfl, rfl⟩
  | search s val _ ih =>
    constructor
    · rw [handleSearch_options, ih.1]
      split_ifs with h
      · simp [sortOptions]
      · rfl
    · rw [handleSearch_sOptions, ih.1]
      simp [filterOptions, sortOptions]
  | key s k _ ih =>
    exact ⟨(stepKey_fst_options s k).trans ih.1, (stepKey_fst_sOptions s k).trans ih.2⟩

theorem jsGetElem_nil (i : Int) : jsGetElem [] i = none := by
  unfold jsGetElem
  split_ifs <;> simp

theorem jsGetElem_isSome_iff (l : List SwitcherDataType) (i : Int) :
    (jsGetElem l i).isSome = true ↔ 0 ≤ i ∧ i < (l.length : Int) := by
  unfold jsGetElem
  split_ifs with h
  · simp
    omega
  · rw [Option.isSome_iff_ne_none]
    rw [ne_eq, List.getElem?_eq_none_iff]
    omega

/-! ### Claims -/

/-- Claim C1, counterexample: the claim asserts the non-slash branch is
case-insensitive on the query, but `matchTab` compares the lower-cased
option names against the query verbatim.  For the option with session
name "Work" and tab name "logs" and the query "W", the claim's formula
(lower-cased name contains lower-cased query) holds, yet the filter does
not match. -/
theorem claim_C1_counterexample :
    matchTab { sessionId := "s1", sessionName := "Work", sessionIdx := 0,
               screenId := "sc1", screenIdx := 0, screenName := "logs",
               icon := "default", color := "default" } "W" = false ∧
    jsIncludes (jsToLower "Work") (jsToLower "W") = true := by
  constructor <;> decide

/-- Claim C1 (amended): for a query without '/', the filter matches
exactly when the lower-cased session name or the lower-cased tab name
contains the query VERBATIM (the query itself is not lower-cased in this
branch; matching is case-insensitive only on the option-name side). -/
theorem claim_C1 (tab : SwitcherDataType) (q : String)
    (h : jsIncludes q "/" = false) :
    matchTab tab q =
      (jsIncludes (jsToLower tab.sessionName) q ||
        jsIncludes (jsToLower tab.screenName) q) := by
  have h' : ¬ (jsIncludes q "/" = true) := by rw [h]; simp
  unfold matchTab
  rw [if_neg h']

/-- Witness for `claim_C1` at the option ("Work", "logs") and query "w". -/
theorem claim_C1_witness :
    jsIncludes "w" "/" = false ∧
    matchTab { sessionId := "s1", sessionName := "Work", sessionIdx := 0,
               screenId := "sc1", screenIdx := 0, screenName := "logs",
               icon := "default", color := "default" } "w" =
      (jsIncludes (jsToLower "Work") "w" || jsIncludes (jsToLower "logs") "w") :=
  ⟨by decide, claim_C1 _ "w" (by decide)⟩

/-- Claim C2: the ranking comparator is a total (pre)order placing
active-session options (ordered by ascending `screenIdx`) before all
others, which are ordered by ascending `sessionIdx` then ascending
`screenIdx`; consequently every two elements of `sortOptions`'s output
stand in that precedence, in order. -/
theorem claim_C2 (act : Int) (l : List SwitcherDataType) :
    (sortOptions act l).Pairwise (specPrecede act) ∧
      ∀ a b : SwitcherDataType, specPrecede act a b ∨ specPrecede act b a := by
  refine ⟨sortOptions_pairwise act l, fun a b => ?_⟩
  rw [← tabCmp_le_iff_specPrecede, ← tabCmp_le_iff_specPrecede]
  have := tabCmp_neg act a b
  omega

/-- Claim C3, counterexample: from the initial state with no options,
one ArrowDown is a reachable step that drives `focusedIdx` to -1
(`min(0 + 1, length - 1)` with `length = 0`), leaving the claimed range
`[0, max 1 len)`. -/
theorem claim_C3_counterexample :
    Reachable [] 0 (stepKey (initState [] 0) Key.arrowDown).1 ∧
      ((stepKey (initState [] 0) Key.arrowDown).1).focusedIdx = -1 := by
  refine ⟨Reachable.key _ _ Reachable.init, ?_⟩
  rw [initState_nil]
  decide

/-- Claim C3 (amended): in every reachable state the cursor satisfies
`-1 ≤ focusedIdx < max 1 len`, with `focusedIdx = -1` possible only while
the visible list is empty: whenever `visibleOptions` is non-empty,
`0 ≤ focusedIdx < len` holds. -/
theorem claim_C3 (opts0 : List SwitcherDataType) (act : Int) (s : SwitcherState)
    (h : Reachable opts0 act s) :
    -1 ≤ s.focusedIdx ∧ s.focusedIdx < max 1 (s.sOptions.length : Int) ∧
      (0 < s.sOptions.length → 0 ≤ s.focusedIdx) :=
  reachable_cursorInv opts0 act s h

/-- Witness for `claim_C3` at the freshly mounted empty switcher. -/
theorem claim_C3_witness :
    -1 ≤ (initState [] 0).focusedIdx ∧
      (initState [] 0).focusedIdx < max 1 ((initState [] 0).sOptions.length : Int) ∧
      (0 < (initState [] 0).sOptions.length → 0 ≤ (initState [] 0).focusedIdx) :=
  claim_C3 [] 0 _ Reachable.init

/-- Claim C4, counterexample: for the query "a/b/c" (two slashes) the
claim's reading takes the tab query to be everything after the FIRST
slash ("b/c"), so the option with session "a" and tab "b" would not
match; the code takes only the second `split` segment ("b"), and the
option does match. -/
theorem claim_C4_counterexample :
    matchTab { sessionId := "s", sessionName := "a", sessionIdx := 0,
               screenId := "sc", screenIdx := 0, screenName := "b",
               icon := "d", color := "d" } "a/b/c" = true ∧
    specMatchSlashFirst
      { sessionId := "s", sessionName := "a", sessionIdx := 0,
        screenId := "sc", screenIdx := 0, screenName := "b",
        icon := "d", color := "d" } "a/b/c" = false := by
  constructor <;> decide

/-- Claim C4 (amended): for a query containing '/', the filter splits on
EVERY '/', trims and lower-cases the segments, and uses the first segment
as the session query and the SECOND segment — the text strictly between
the first and the second '/' (to the end when there is no second '/') —
as the tab query, ignoring everything after a second '/'; the option
matches when its lower-cased session name contains the session query AND
its lower-cased tab name contains the tab query. -/
theorem claim_C4 (tab : SwitcherDataType) (q : String)
    (h : jsIncludes q "/" = true) :
    matchTab tab q =
      (jsIncludes (jsToLower tab.sessionName)
          (jsToLower (jsTrim (String.mk (beforeSlashL q.data)))) &&
        jsIncludes (jsToLower tab.screenName)
          (jsToLower (jsTrim (String.mk (beforeSlashL (afterSlashL q.data)))))) := by
  have hc : ('/' : Char) ∈ q.data := by
    have h2 : jsIncludesL ['/'] q.data = true := h
    exact (jsIncludesL_singleton '/' q.data).mp h2
  unfold matchTab
  rw [if_pos h]
  simp only [jsSplit, List.map_cons, List.getD_cons_zero, List.getD_cons_succ]
  rw [splitOnCharL_snd '/' q.data hc]
  simp only [List.map_cons, List.getD_cons_zero]
  rw [splitOnCharL_fst, splitOnCharL_fst]
  rfl

/-- Witness for `claim_C4` at the option ("a", "b") and query "a/b". -/
theorem claim_C4_witness :
    jsIncludes "a/b" "/" = true ∧
    matchTab { sessionId := "s", sessionName := "a", sessionIdx := 0,
               screenId := "sc", screenIdx := 0, screenName := "b",
               icon := "d", color := "d" } "a/b" =
      (jsIncludes (jsToLower "a")
          (jsToLower (jsTrim (String.mk (beforeSlashL ("a/b" : String).data)))) &&
        jsIncludes (jsToLower "b")
          (jsToLower (jsTrim (String.mk (beforeSlashL (afterSlashL ("a/b" : String).data)))))) :=
  ⟨by decide, claim_C4 _ "a/b" (by decide)⟩

/-- Claim C5: every search update recomputes the visible list as the
ranked filtered options truncated to the first `MaxOptionsToDisplay` and
resets the cursor to 0; with the empty text the filter keeps every
option, so the same formula covers that case. -/
theorem claim_C5 (s : SwitcherState) (val : String) :
    (handleSearch s val).sOptions =
      (sortOptions s.act (filterOptions s.options val)).take MaxOptionsToDisplay ∧
    (handleSearch s val).focusedIdx = 0 ∧
    filterOptions s.options "" = s.options :=
  ⟨handleSearch_sOptions s val, handleSearch_focusedIdx s val,
    filterOptions_empty_query s.options⟩

/-- Claim C6: the visible list never exceeds `MaxOptionsToDisplay`
elements, after initialization and after every search update, for any
option list and any query. -/
theorem claim_C6 :
    (∀ (opts0 : List SwitcherDataType) (act : Int),
        (initState opts0 act).sOptions.length ≤ MaxOptionsToDisplay) ∧
      ∀ (s : SwitcherState) (val : String),
        (handleSearch s val).sOptions.length ≤ MaxOptionsToDisplay := by
  constructor
  · intro opts0 act
    exact List.length_take_le _ _
  · intro s val
    rw [handleSearch_sOptions]
    exact List.length_take_le _ _

/-- Claim C7: the selection commit never mutates the switcher state;
it dispatches `switchScreen (screenId, sessionId)` of the option at
`index` and closes exactly when that lookup succeeds, which happens
exactly when `0 ≤ index < len(visibleOptions)`; otherwise it dispatches
nothing and does not close. -/
theorem claim_C7 (s : SwitcherState) (index : Int) :
    (handleSelect s index).1 = s ∧
    (handleSelect s index).2.switched =
      (jsGetElem s.sOptions index).map (fun o => (o.screenId, o.sessionId)) ∧
    (handleSelect s index).2.closed = (jsGetElem s.sOptions index).isSome ∧
    ((jsGetElem s.sOptions index).isSome = true ↔
      0 ≤ index ∧ index < (s.sOptions.length : Int)) := by
  refine ⟨handleSelect_fst s index, ?_, ?_, jsGetElem_isSome_iff _ _⟩ <;>
    rcases hj : jsGetElem s.sOptions index with _ | o <;>
    simp [handleSelect, hj, noEffects]

/-- Claim C8, counterexample: with `allOptions` empty, ArrowDown is NOT a
no-op: it moves `focusedIdx` from 0 to -1, changing the switcher state. -/
theorem claim_C8_counterexample :
    (stepKey (initState [] 0) Key.arrowDown).1 ≠ initState [] 0 := by
  rw [initState_nil]
  decide

/-- Claim C8 (amended): when `allOptions` is empty, the visible list is
empty in every reachable state (hence after initialization and after
every search update); Enter is a strict no-op (state unchanged, nothing
dispatched, no close); ArrowUp and ArrowDown dispatch nothing, close
nothing and leave the option lists unchanged (they may only move the
inert cursor between 0 and -1); Escape closes the switcher. -/
theorem claim_C8 (act : Int) (s : SwitcherState) (h : Reachable [] act s) :
    s.options = [] ∧ s.sOptions = [] ∧
    stepKey s Key.enter = (s, noEffects) ∧
    (∀ k, k ≠ Key.escape → (stepKey s k).2 = noEffects) ∧
    (stepKey s Key.arrowUp).1.sOptions = [] ∧
    (stepKey s Key.arrowDown).1.sOptions = [] ∧
    stepKey s Key.escape = (s, { switched := none, closed := true }) := by
  obtain ⟨ho, hs⟩ := reachable_empty act s h
  have henter : stepKey s Key.enter = (s, noEffects) := by
    show handleSelect s s.focusedIdx = (s, noEffects)
    unfold handleSelect
    rw [hs, jsGetElem_nil]
  refine ⟨ho, hs, henter, ?_, ?_, ?_, rfl⟩
  · intro k hk
    cases k with
    | escape => exact absurd rfl hk
    | enter => rw [henter]
    | arrowUp => rfl
    | arrowDown => rfl
  · rw [stepKey_fst_sOptions]; exact hs
  · rw [stepKey_fst_sOptions]; exact hs

/-- Witness for `claim_C8` at the freshly mounted empty switcher. -/
theorem claim_C8_witness :
    (initState [] 0).sOptions = [] ∧
      stepKey (initState [] 0) Key.enter = (initState [] 0, noEffects) := by
  have h := claim_C8 0 (initState [] 0) Reachable.init
  exact ⟨h.2.1, h.2.2.1⟩

/-- Claim C9: `allOptions` is fixed after initialization: in every
reachable state the `options` field equals its value at mount time (the
empty-query re-sort re-sorts an already sorted list, which is the
identity for a stable sort with this comparator; every other operation
leaves the list untouched). -/
theorem claim_C9 (opts0 : List SwitcherDataType) (act : Int) (s : SwitcherState)
    (h : Reachable opts0 act s) :
    s.options = (initState opts0 act).options :=
  (reachable_options_eq opts0 act s h).1

/-- Witness for `claim_C9`: a search step on a mounted switcher leaves
`options` at its mount value. -/
theorem claim_C9_witness :
    (handleSearch (initState [] 0) "x").options = (initState [] 0).options :=
  claim_C9 [] 0 _ (Reachable.search _ "x" Reachable.init)

/-- Claim C10: the ranking function permutes its input: the output is a
permutation of the input list, so every option occurs in the output
exactly as many times as in the input (none dropped, none duplicated). -/
theorem claim_C10 (act : Int) (l : List SwitcherDataType) :
    (sortOptions act l).Perm l ∧
      ∀ o : SwitcherDataType, (sortOptions act l).count o = l.count o :=
  ⟨sortOptions_perm act l, fun o => (sortOptions_perm act l).count_eq o⟩
